import Mathlib

/-!
Verification of the telemetry-correlation engine of the `test-app`
(src/test-app/app.py): span model, context stack, trace-context log
formatter, metrics, and the background workload simulator.

Spans, the context stack and the metric accumulators are implemented by
the OpenTelemetry SDK, which is not part of this repository's sources;
those parts are modelled from the specification (each such definition is
marked `Modelled from the spec:`).  Everything else is translated
directly from src/test-app/app.py.
-/

namespace TestApp

/-! ## Hex encoding (Python `format(n, '032x')` / `format(n, '016x')`) -/

/-- One lowercase hex digit, `0 ≤ n < 16` (`'0'` = 48, `'a'` = 97). -/
def hexChar (n : Nat) : Char :=
  if n < 10 then Char.ofNat (48 + n) else Char.ofNat (87 + n)

/-- Hex digits of `n`, least significant first; empty for `0`. -/
def hexRev : Nat → List Char
  | 0 => []
  | n + 1 => hexChar ((n + 1) % 16) :: hexRev ((n + 1) / 16)
decreasing_by
  exact Nat.div_lt_self (Nat.succ_pos n) (by decide)

/-- Minimal-width lowercase hex representation of `n` (at least one digit). -/
def toHexMin (n : Nat) : List Char :=
  if n = 0 then ['0'] else (hexRev n).reverse

/-- Python `format(n, '0{w}x')`: lowercase hex, left zero-padded to at
least `w` characters. -/
def fmtHex (w n : Nat) : String :=
  ⟨List.replicate (w - (toHexMin n).length) '0' ++ toHexMin n⟩

theorem hexRev_length_le : ∀ (k n : Nat), n < 16 ^ k → (hexRev n).length ≤ k := by
  intro k
  induction k with
  | zero =>
      intro n hn
      interval_cases n
      simp [hexRev]
  | succ k ih =>
      intro n hn
      match n with
      | 0 => simp [hexRev]
      | m + 1 =>
          rw [hexRev]
          simp only [List.length_cons]
          have hdiv : (m + 1) / 16 < 16 ^ k := by
            have h16 : 0 < 16 := by decide
            rw [Nat.div_lt_iff_lt_mul h16]
            calc m + 1 < 16 ^ (k + 1) := hn
              _ = 16 ^ k * 16 := by ring
          exact Nat.succ_le_succ (ih _ hdiv)

theorem toHexMin_length_le {k n : Nat} (hk : 0 < k) (hn : n < 16 ^ k) :
    (toHexMin n).length ≤ k := by
  unfold toHexMin
  split
  · simpa using hk
  · simpa using hexRev_length_le k n hn

/-- With `n < 16 ^ w` the padded representation has exactly `w` characters. -/
theorem fmtHex_length {w n : Nat} (hw : 0 < w) (hn : n < 16 ^ w) :
    (fmtHex w n).length = w := by
  have hle : (toHexMin n).length ≤ w := toHexMin_length_le hw hn
  simp [fmtHex, String.length]
  omega

/-! ## Attribute values, spans, context stack -/

/-- A scalar attribute value (string / integer / boolean). -/
inductive AVal where
  | s (v : String)
  | i (v : Int)
  | b (v : Bool)
deriving Repr, DecidableEq

/-- Span status: Unset, Ok, or Error with a message. -/
inductive SpanStatus where
  | unset
  | ok
  | error (msg : String)
deriving Repr, DecidableEq

/-- Python-dict assignment `d[k] = v`: overwrite the existing entry in
place or append a fresh one. -/
def dictSet : List (String × AVal) → String → AVal → List (String × AVal)
  | [], k, v => [(k, v)]
  | (k0, v0) :: rest, k, v =>
      if k0 = k then (k, v) :: rest else (k0, v0) :: dictSet rest k v

/-- Python `d.update(extra)`: assign every pair of `extra` in order. -/
def dictUpd (d : List (String × AVal)) (extra : List (String × AVal)) :
    List (String × AVal) :=
  extra.foldl (fun acc p => dictSet acc p.1 p.2) d

/-- Modelled from the spec: the Span record of §3 (the OpenTelemetry SDK
span object is not part of the sources).  `closed = true` once sealed. -/
structure Span where
  name : String
  traceId : Nat
  spanId : Nat
  parentSpanId : Option Nat
  attributes : List (String × AVal)
  events : List (String × List (String × AVal))
  status : SpanStatus
  closed : Bool
deriving Repr, DecidableEq

/-- Modelled from the spec: one execution context's tracer state — the
stack of open spans (top first), the sealed spans handed to the
exporter, and the id-generation source (a fresh-number supply standing
in for the SDK's random id generator). -/
structure TraceState where
  stack : List Span
  finished : List Span
  nextId : Nat
deriving Repr, DecidableEq

/-- The initial state of one execution context. -/
def st0 : TraceState := ⟨[], [], 1⟩

/-- Modelled from the spec: a 128-bit trace id drawn from the supply. -/
def newTraceId (st : TraceState) : Nat := st.nextId % 2 ^ 128

/-- Modelled from the spec: a 64-bit span id drawn from the supply
(offset `d` = how many ids were already consumed in this operation). -/
def newSpanId (st : TraceState) (d : Nat) : Nat := (st.nextId + d) % 2 ^ 64

/-- Modelled from the spec: `open(name)` — the new span's parent is the
current top of the stack and it inherits that span's `trace_id`; with an
empty stack it becomes a root with a freshly generated `trace_id`. -/
def openSpan (name : String) (st : TraceState) : TraceState :=
  match st.stack with
  | p :: rest =>
      { st with
        stack := { name := name, traceId := p.traceId,
                   spanId := newSpanId st 0, parentSpanId := some p.spanId,
                   attributes := [], events := [], status := .unset,
                   closed := false } :: p :: rest
        nextId := st.nextId + 1 }
  | [] =>
      { st with
        stack := [{ name := name, traceId := newTraceId st,
                    spanId := newSpanId st 1, parentSpanId := none,
                    attributes := [], events := [], status := .unset,
                    closed := false }]
        nextId := st.nextId + 2 }

/-- Apply `f` to the current span (top of stack); no-op on an empty stack. -/
def modifyTop (f : Span → Span) (st : TraceState) : TraceState :=
  match st.stack with
  | [] => st
  | s :: rest => { st with stack := f s :: rest }

/-- `set_attribute` on the current span (Python-dict overwrite). -/
def setAttrTop (k : String) (v : AVal) : TraceState → TraceState :=
  modifyTop fun s => { s with attributes := dictSet s.attributes k v }

/-- `add_event` on the current span (append-only). -/
def addEventTop (n : String) (a : List (String × AVal)) :
    TraceState → TraceState :=
  modifyTop fun s => { s with events := s.events ++ [(n, a)] }

/-- `set_status` on the current span. -/
def setStatusTop (stat : SpanStatus) : TraceState → TraceState :=
  modifyTop fun s => { s with status := stat }

/-- Modelled from the spec: `close` — seal the current span and pop it,
handing it to the exporter. -/
def closeTop (st : TraceState) : TraceState :=
  match st.stack with
  | [] => st
  | s :: rest =>
      { st with stack := rest, finished := { s with closed := true } :: st.finished }

/-- Modelled from the spec: `close(handle)` for an explicit handle — it
is a reported, non-fatal usage error (`true` in the second component) to
close a handle that is not the current stack top, and the state is then
left unchanged. -/
def closeHandle (sid : Nat) (st : TraceState) : TraceState × Bool :=
  match st.stack with
  | top :: _ => if top.spanId = sid then (closeTop st, false) else (st, true)
  | [] => (st, true)

/-! ## The trace-context log formatter (src/test-app/app.py, `TraceContextFormatter`) -/

/-- The result of `trace.get_current_span().get_span_context()`: with no
open span the SDK returns the invalid context (ids 0, `is_valid` false). -/
structure SpanContext where
  traceId : Nat
  spanId : Nat
  valid : Bool
deriving Repr, DecidableEq

/-- `get_current_span().get_span_context()` for one execution context. -/
def currentContext (st : TraceState) : SpanContext :=
  match st.stack with
  | s :: _ => ⟨s.traceId, s.spanId, true⟩
  | [] => ⟨0, 0, false⟩

/-- `TraceContextFormatter.format`: the base JSON entry, then
`traceID`/`spanID` (as `format(_, '032x')` / `format(_, '016x')`) when
the context is valid, then `log_entry.update(record.extra_data)`. -/
def formatRecord (ctx : SpanContext) (ts level logger message : String)
    (extra : List (String × AVal)) : List (String × AVal) :=
  let base := [("timestamp", AVal.s ts), ("level", AVal.s level),
               ("logger", AVal.s logger), ("message", AVal.s message)]
  let withCtx :=
    if ctx.valid then
      dictSet (dictSet base "traceID" (.s (fmtHex 32 ctx.traceId)))
        "spanID" (.s (fmtHex 16 ctx.spanId))
    else base
  dictUpd withCtx extra

/-! ## Instrumentation events

Each handler and each simulator cycle is transcribed, statement by
statement, into the list of instrumentation events it performs, in
source order.  `sleep` stands for `time.sleep(...)`. -/

inductive Ev where
  | openSp (name : String)
  | setAttr (k : String) (v : AVal)
  | addEvent (n : String) (a : List (String × AVal))
  | setStatus (stat : SpanStatus)
  | closeSp
  | logE (level : String) (msg : String) (extra : List (String × AVal))
  | counterAdd (name : String) (delta : Int) (labels : List (String × String))
  | histRecord (name : String) (labels : List (String × String))
  | sleep
deriving Repr, DecidableEq

/-- Effect of one event on the span state of the emitting execution
context (logs, metrics and sleeps do not touch span state). -/
def applyEv (st : TraceState) (e : Ev) : TraceState :=
  match e with
  | .openSp n => openSpan n st
  | .setAttr k v => setAttrTop k v st
  | .addEvent n a => addEventTop n a st
  | .setStatus s => setStatusTop s st
  | .closeSp => closeTop st
  | .logE _ _ _ => st
  | .counterAdd _ _ _ => st
  | .histRecord _ _ => st
  | .sleep => st

/-- Run a list of events over the span state. -/
def runEvs (evs : List Ev) (st : TraceState) : TraceState :=
  evs.foldl applyEv st

theorem runEvs_append (a b : List Ev) (st : TraceState) :
    runEvs (a ++ b) st = runEvs b (runEvs a st) := by
  simp [runEvs, List.foldl_append]

/-! ## Background workload simulator (src/test-app/app.py, `background_mlt_emitter`) -/

/-- The fixed operation catalog (lines 339–345). -/
def operations : List (String × List String) :=
  [("user-login", ["validate-credentials", "create-session", "log-audit"]),
   ("data-sync", ["fetch-remote", "transform-data", "store-local"]),
   ("report-generation", ["query-data", "aggregate-results", "format-output"]),
   ("cache-refresh", ["check-staleness", "fetch-new-data", "update-cache"]),
   ("health-check", ["check-db", "check-cache", "check-external-api"])]

/-- `random.choice(operations)`: a uniformly random index into the
catalog, modelled by reducing a uniform natural draw modulo the catalog
size. -/
def pickOp (r : Nat) : String × List String :=
  operations.getD (r % operations.length) ("", [])

/-- `random.random() < 0.1` (the 10 % failure draw), modelled on a
uniform draw from 1000 equiprobable values. -/
def failDraw (r : Nat) : Bool := r % 1000 < 100

/-- One child step of a simulator cycle (lines 387–418): open the child
span, set `step.name`, sleep the simulated work, then either the failure
branch (error attribute, `error_occurred` event, error-level log,
`background_errors_total` increment) or the success branch
(`step_completed` event, info-level log); the `with` block closes the
child span in both branches. -/
def stepEvs (opName : String) (cycle : Nat) (child : String) (fail : Bool)
    (durMs : Nat) : List Ev :=
  [.openSp child, .setAttr "step.name" (.s child), .sleep] ++
  (if fail then
    [.setAttr "error" (.b true),
     .addEvent "error_occurred"
       [("error.type", .s "SimulatedError"),
        ("error.message", .s ("Random failure in " ++ child))],
     .logE "error" ("Step failed: " ++ child)
       [("operation", .s opName), ("step", .s child), ("cycle", .i cycle)],
     .counterAdd "background_errors_total" 1
       [("operation", opName), ("step", child)]]
  else
    [.addEvent "step_completed" [("duration_ms", .i durMs)],
     .logE "info" ("Step completed: " ++ child)
       [("operation", .s opName), ("step", .s child), ("duration_ms", .i durMs)]]) ++
  [.closeSp]

/-- Overall success of a cycle: `success` starts `True` and is set
`False` by every failing step, so it ends as the AND of all step
outcomes. -/
def cycleSuccess (steps : List (String × Bool × Nat)) : Bool :=
  steps.all fun s => !s.2.1

/-- One full simulator cycle (lines 368–437) for cycle number `cycle`,
chosen operation `opName`, and per-step `(name, fail, duration)` data
`steps`; `durMs` is the measured whole-cycle duration.  Ends with the
inter-cycle sleep. -/
def cycleEvs (cycle : Nat) (opName : String) (steps : List (String × Bool × Nat))
    (durMs : Nat) : List Ev :=
  [.openSp ("bg-" ++ opName),
   .setAttr "operation.type" (.s "background"),
   .setAttr "operation.cycle" (.i cycle),
   .logE "info" ("Background operation started: " ++ opName)
     [("operation", .s opName), ("cycle", .i cycle)]] ++
  (steps.map fun s => stepEvs opName cycle s.1 s.2.1 s.2.2).flatten ++
  [.counterAdd "background_operations_total" 1
     [("operation", opName),
      ("status", if cycleSuccess steps then "success" else "failure")],
   .histRecord "background_operation_duration_seconds" [("operation", opName)],
   .setAttr "operation.success" (.b (cycleSuccess steps)),
   .setAttr "operation.duration_ms" (.i durMs),
   .logE "info" ("Background operation completed: " ++ opName)
     [("operation", .s opName), ("success", .b (cycleSuccess steps)),
      ("duration_ms", .i durMs), ("cycle", .i cycle)],
   .closeSp,
   .sleep]

/-- One iteration of the emitter loop: `cycle_count += 1`, pick the
operation with draw `r`, zip its catalog steps with the per-step failure
and duration draws, and run the cycle. -/
def emitterCycle (cyclesBefore : Nat) (r : Nat) (fails : List Bool)
    (durs : List Nat) (durMs : Nat) : List Ev :=
  let op := pickOp r
  cycleEvs (cyclesBefore + 1) op.1 (op.2.zip (fails.zip durs)) durMs

/-- Names of the spans a trace opens, in order. -/
def opensOf (evs : List Ev) : List String :=
  evs.filterMap fun e => match e with | .openSp n => some n | _ => none

/-- Net delta applied to the `http_requests_active` up/down counter. -/
def activeSum : List Ev → Int
  | [] => 0
  | .counterAdd n d _ :: rest =>
      (if n = "http_requests_active" then d else 0) + activeSum rest
  | _ :: rest => activeSum rest

/-! ## Instrumented request handlers (src/test-app/app.py, lines 151–322) -/

/-- `home` (`GET /`): instrumentation events and HTTP status. -/
def homeRun : List Ev × Nat :=
  ([.counterAdd "http_requests_active" 1 [],
    .logE "info" "Home page requested" [("endpoint", .s "/")],
    .sleep,
    .counterAdd "http_requests_total" 1
      [("endpoint", "/"), ("method", "GET"), ("status", "200")],
    .counterAdd "http_requests_active" (-1) [],
    .histRecord "http_request_duration_seconds"
      [("endpoint", "/"), ("method", "GET")]], 200)

/-- `create_order` (`POST /api/orders`) with random draws resolved:
`oid` the generated order id, `items`/`txn` the random counts, `amtA`
the random payment amount, `amtStr` its `$%.2f` rendering, `slow` the
10 % slow-payment draw. -/
def createOrderRun (slow : Bool) (oid amtStr : String) (amtA : AVal)
    (items txn : Nat) : List Ev × Nat :=
  ([.counterAdd "http_requests_active" 1 [],
    .logE "info" "Order creation started" [("order_id", .s oid)],
    .openSp "validate-order",
    .setAttr "order.id" (.s oid),
    .logE "info" "Validating order" [("step", .s "validation"), ("order_id", .s oid)],
    .sleep,
    .addEvent "validation_complete" [("status", .s "passed")],
    .closeSp,
    .openSp "check-inventory",
    .setAttr "order.id" (.s oid),
    .setAttr "items.count" (.i items),
    .logE "info" "Checking inventory"
      [("step", .s "inventory"), ("order_id", .s oid), ("items", .i items)],
    .sleep,
    .openSp "db-query",
    .setAttr "db.system" (.s "postgresql"),
    .setAttr "db.operation" (.s "SELECT"),
    .logE "info" "Executing inventory query"
      [("step", .s "db_query"), ("order_id", .s oid)],
    .sleep,
    .addEvent "query_executed" [("rows_returned", .i items)],
    .closeSp,
    .closeSp,
    .openSp "process-payment",
    .setAttr "payment.amount" amtA,
    .setAttr "payment.currency" (.s "USD"),
    .logE "info" "Processing payment"
      [("step", .s "payment"), ("order_id", .s oid), ("amount", .s amtStr)]] ++
   (if slow then
     [.sleep,
      .logE "warning" "Payment gateway slow"
        [("step", .s "payment"), ("order_id", .s oid)],
      .sleep]
    else [.sleep]) ++
   [.addEvent "payment_processed"
      [("transaction_id", .s ("TXN-" ++ toString txn))],
    .closeSp,
    .logE "info" "Order created successfully"
      [("order_id", .s oid), ("status", .s "completed")],
    .counterAdd "http_requests_total" 1
      [("endpoint", "/api/orders"), ("method", "POST"), ("status", "201")],
    .counterAdd "http_requests_active" (-1) [],
    .histRecord "http_request_duration_seconds"
      [("endpoint", "/api/orders"), ("method", "POST")]], 201)

/-- `get_order` (`GET /api/orders/<order_id>`); `nf` is the 20 %
not-found draw.  On not-found the `return` inside the `with` closes the
span and then runs the `finally` block. -/
def getOrderRun (nf : Bool) (oid : String) : List Ev × Nat :=
  ([.counterAdd "http_requests_active" 1 [],
    .logE "info" "Fetching order" [("order_id", .s oid)],
    .openSp "fetch-from-db",
    .setAttr "db.system" (.s "postgresql"),
    .setAttr "order.id" (.s oid),
    .logE "info" "Querying database"
      [("order_id", .s oid), ("operation", .s "SELECT")],
    .sleep] ++
   (if nf then
     [.setAttr "order.found" (.b false),
      .logE "warning" "Order not found" [("order_id", .s oid)],
      .counterAdd "http_requests_total" 1
        [("endpoint", "/api/orders/{id}"), ("method", "GET"), ("status", "404")],
      .closeSp,
      .counterAdd "http_requests_active" (-1) [],
      .histRecord "http_request_duration_seconds"
        [("endpoint", "/api/orders/{id}"), ("method", "GET")]]
    else
     [.setAttr "order.found" (.b true),
      .closeSp,
      .logE "info" "Order retrieved" [("order_id", .s oid)],
      .counterAdd "http_requests_total" 1
        [("endpoint", "/api/orders/{id}"), ("method", "GET"), ("status", "200")],
      .counterAdd "http_requests_active" (-1) [],
      .histRecord "http_request_duration_seconds"
        [("endpoint", "/api/orders/{id}"), ("method", "GET")]]),
   if nf then 404 else 200)

/-- The message of the `ValueError` raised by `/api/error`. -/
def simErrMsg : String := "Simulated error for demonstration"

/-- `trigger_error` (`GET /api/error`): the handler raises
`ValueError(simErrMsg)` inside the `failing-operation` span, records the
exception and Error status by hand, re-raises so the `with` exit records
the exception and Error status again and ends the span, and the outer
`except ValueError` turns the exception into a normal 500 response.  The
second component is the handler's outcome: `.ok` means the exception did
not escape the handler. -/
def triggerErrorRun : List Ev × Except String (Nat × String) :=
  ([.counterAdd "http_requests_active" 1 [],
    .logE "warning" "Error endpoint called - this will fail" [],
    .openSp "failing-operation",
    .setAttr "error" (.b true),
    .logE "error" "About to raise exception" [],
    .addEvent "exception"
      [("exception.type", .s "ValueError"), ("exception.message", .s simErrMsg)],
    .setStatus (.error simErrMsg),
    .logE "error" "Exception occurred"
      [("error", .s simErrMsg), ("error_type", .s "ValueError")],
    .addEvent "exception"
      [("exception.type", .s "ValueError"), ("exception.message", .s simErrMsg)],
    .setStatus (.error simErrMsg),
    .closeSp,
    .counterAdd "http_requests_total" 1
      [("endpoint", "/api/error"), ("method", "GET"), ("status", "500")],
    .counterAdd "http_requests_active" (-1) [],
    .histRecord "http_request_duration_seconds"
      [("endpoint", "/api/error"), ("method", "GET")]],
   .ok (500, simErrMsg))

/-! ## Scoped span acquisition (spec §4.2) -/

/-- Modelled from the spec: the scoped span form (`start_as_current_span`
as a context manager).  The unit of work transforms the tracer state and
either finishes cleanly (`none`) or raises (`some e`); on a raise the
failure is recorded as a span event, the status is set to Error, the
span is closed, and the exception propagates. -/
def withSpan (name : String) (body : TraceState → TraceState × Option String)
    (st : TraceState) : TraceState × Option String :=
  let r := body (openSpan name st)
  match r.2 with
  | none => (closeTop r.1, none)
  | some e =>
      (closeTop (setStatusTop (.error e)
        (addEventTop "exception" [("exception.message", .s e)] r.1)), some e)

/-- A unit of work is well-nested when it returns the stack it was given
up to mutation of the top span's data (same id, same name, still open),
and only adds to the finished list. -/
def WellNested (body : TraceState → TraceState × Option String) : Prop :=
  ∀ s t rest, s.stack = t :: rest →
    ∃ t2 l, (body s).1.stack = t2 :: rest ∧ t2.spanId = t.spanId ∧
      t2.name = t.name ∧ t2.closed = t.closed ∧
      (body s).1.finished = l ++ s.finished

/-! ## Metric series accumulator (spec §4.4) -/

/-- Modelled from the spec: the per-(name, label-set) accumulator of a
counter series; each `add` is atomic (lock-protected per series). -/
structure Series where
  value : Int
deriving Repr, DecidableEq

/-- One atomic `add(delta)` on a series. -/
def Series.add (s : Series) (d : Int) : Series := ⟨s.value + d⟩

/-- Execute a schedule of atomic adds in order. -/
def runAdds (s : Series) (ds : List Int) : Series := ds.foldl Series.add s

/-! ## Dictionary lemmas -/

theorem lookup_dictSet_ne {k k0 : String} (d : List (String × AVal)) (v : AVal)
    (h : k ≠ k0) : List.lookup k (dictSet d k0 v) = List.lookup k d := by
  induction d with
  | nil =>
      have hk : (k == k0) = false := by simp [h]
      simp [dictSet, List.lookup, hk]
  | cons p rest ih =>
      obtain ⟨a, b⟩ := p
      by_cases ha : a = k0
      · subst ha
        have hk : (k == a) = false := by simp [h]
        simp [dictSet, List.lookup, hk]
      · simp only [dictSet, if_neg ha]
        by_cases hka : k = a
        · subst hka
          simp [List.lookup]
        · have hk : (k == a) = false := by simp [hka]
          simp [List.lookup, hk, ih]

theorem lookup_dictUpd_ne {k : String} (d extra : List (String × AVal))
    (h : ∀ p ∈ extra, p.1 ≠ k) :
    List.lookup k (dictUpd d extra) = List.lookup k d := by
  induction extra generalizing d with
  | nil => rfl
  | cons p ps ih =>
      have hp : p.1 ≠ k := h p (by simp)
      have hs : ∀ q ∈ ps, q.1 ≠ k := fun q hq => h q (by simp [hq])
      calc List.lookup k (dictUpd d (p :: ps))
          = List.lookup k (dictUpd (dictSet d p.1 p.2) ps) := rfl
        _ = List.lookup k (dictSet d p.1 p.2) := ih _ hs
        _ = List.lookup k d := lookup_dictSet_ne _ _ (fun hk => hp hk.symm)

/-! ## Claim theorems -/

/-- C1: every log emission performed while a span S is the current span
carries a `traceID` field equal to S's trace id hex-encoded in exactly
32 characters and a `spanID` field equal to S's span id hex-encoded in
exactly 16 characters; a log emitted with no open span carries neither
field, and the formatter still returns a record (no error). -/
theorem log_trace_correlation :
    (∀ (st : TraceState) (ts level logger message : String)
       (extra : List (String × AVal)) (s : Span) (rest : List Span),
       st.stack = s :: rest →
       s.traceId < 2 ^ 128 → s.spanId < 2 ^ 64 →
       (∀ p ∈ extra, p.1 ≠ "traceID" ∧ p.1 ≠ "spanID") →
       List.lookup "traceID" (formatRecord (currentContext st) ts level logger message extra)
           = some (.s (fmtHex 32 s.traceId)) ∧
       (fmtHex 32 s.traceId).length = 32 ∧
       List.lookup "spanID" (formatRecord (currentContext st) ts level logger message extra)
           = some (.s (fmtHex 16 s.spanId)) ∧
       (fmtHex 16 s.spanId).length = 16) ∧
    (∀ (st : TraceState) (ts level logger message : String)
       (extra : List (String × AVal)),
       st.stack = [] →
       (∀ p ∈ extra, p.1 ≠ "traceID" ∧ p.1 ≠ "spanID") →
       List.lookup "traceID" (formatRecord (currentContext st) ts level logger message extra) = none ∧
       List.lookup "spanID" (formatRecord (currentContext st) ts level logger message extra) = none) := by
  constructor
  · intro st ts level logger message extra s rest hstack htr hsp hextra
    have hctx : currentContext st = ⟨s.traceId, s.spanId, true⟩ := by
      simp [currentContext, hstack]
    have htr16 : s.traceId < 16 ^ 32 := by
      have : (16 : Nat) ^ 32 = 2 ^ 128 := by norm_num
      omega
    have hsp16 : s.spanId < 16 ^ 16 := by
      have : (16 : Nat) ^ 16 = 2 ^ 64 := by norm_num
      omega
    have hT := fun q hq => (hextra q hq).1
    have hS := fun q hq => (hextra q hq).2
    refine ⟨?_, fmtHex_length (by norm_num) htr16, ?_, fmtHex_length (by norm_num) hsp16⟩
    · rw [formatRecord, hctx]
      rw [lookup_dictUpd_ne _ _ hT]
      simp [dictSet, List.lookup]
    · rw [formatRecord, hctx]
      rw [lookup_dictUpd_ne _ _ hS]
      simp [dictSet, List.lookup]
  · intro st ts level logger message extra hstack hextra
    have hctx : currentContext st = ⟨0, 0, false⟩ := by
      simp [currentContext, hstack]
    have hT := fun q hq => (hextra q hq).1
    have hS := fun q hq => (hextra q hq).2
    constructor
    · rw [formatRecord, hctx, lookup_dictUpd_ne _ _ hT]
      simp [List.lookup]
    · rw [formatRecord, hctx, lookup_dictUpd_ne _ _ hS]
      simp [List.lookup]

/-- Witness for C1, on a concrete root span (ids 1 and 2) and on the
empty execution context. -/
theorem log_trace_correlation_witness :
    (List.lookup "traceID"
        (formatRecord (currentContext (openSpan "root" st0)) "t" "INFO" "test-app" "hello"
          [("endpoint", .s "/")])
        = some (.s (fmtHex 32 (1 % 2 ^ 128))) ∧
      (fmtHex 32 (1 % 2 ^ 128)).length = 32 ∧
      List.lookup "spanID"
        (formatRecord (currentContext (openSpan "root" st0)) "t" "INFO" "test-app" "hello"
          [("endpoint", .s "/")])
        = some (.s (fmtHex 16 (2 % 2 ^ 64))) ∧
      (fmtHex 16 (2 % 2 ^ 64)).length = 16) ∧
    (List.lookup "traceID"
        (formatRecord (currentContext st0) "t" "INFO" "test-app" "bye" [("endpoint", .s "/")]) = none ∧
      List.lookup "spanID"
        (formatRecord (currentContext st0) "t" "INFO" "test-app" "bye" [("endpoint", .s "/")]) = none) :=
  ⟨log_trace_correlation.1 (openSpan "root" st0) "t" "INFO" "test-app" "hello"
      [("endpoint", .s "/")]
      { name := "root", traceId := 1 % 2 ^ 128, spanId := 2 % 2 ^ 64,
        parentSpanId := none, attributes := [], events := [],
        status := .unset, closed := false } [] rfl (by decide) (by decide)
      (by decide),
   log_trace_correlation.2 st0 "t" "INFO" "test-app" "bye" [("endpoint", .s "/")] rfl
      (by decide)⟩

/-! ### C2: parent/child linkage and trace-id inheritance -/

/-- All open spans of one execution context carry the same trace id. -/
def sharedTrace (st : TraceState) : Prop :=
  ∀ s ∈ st.stack, ∀ u ∈ st.stack, s.traceId = u.traceId

theorem sharedTrace_modifyTop (f : Span → Span)
    (hf : ∀ s, (f s).traceId = s.traceId) {st : TraceState}
    (h : sharedTrace st) : sharedTrace (modifyTop f st) := by
  intro s hs u hu
  unfold modifyTop at hs hu
  cases hst : st.stack with
  | nil => simp [hst] at hs
  | cons t rest =>
      rw [hst] at hs hu
      simp at hs hu
      have ht : t ∈ st.stack := by simp [hst]
      rcases hs with hs | hs <;> rcases hu with hu | hu
      · rw [hs, hu]
      · rw [hs, hf t]; exact h t ht u (by simp [hst, hu])
      · rw [hu, hf t]; exact (h t ht s (by simp [hst, hs])).symm
      · exact h s (by simp [hst, hs]) u (by simp [hst, hu])

theorem sharedTrace_applyEv {st : TraceState} (e : Ev)
    (h : sharedTrace st) : sharedTrace (applyEv st e) := by
  cases e with
  | openSp n =>
      show sharedTrace (openSpan n st)
      unfold openSpan
      cases hst : st.stack with
      | nil =>
          intro s hs u hu
          simp at hs hu
          rw [hs, hu]
      | cons p rest =>
          intro s hs u hu
          simp at hs hu
          have hp : p ∈ st.stack := by simp [hst]
          rcases hs with hs | hs | hs <;> rcases hu with hu | hu | hu
        <;> first
          | (rw [hs, hu])
          | (rw [hs]; exact h p hp u (by simp [hst, hu]))
          | (rw [hu]; exact (h p hp s (by simp [hst, hs])).symm)
          | (exact h s (by simp [hst, hs]) u (by simp [hst, hu]))
  | setAttr k v =>
      exact sharedTrace_modifyTop
        (fun s => { s with attributes := dictSet s.attributes k v }) (fun s => rfl) h
  | addEvent n a =>
      exact sharedTrace_modifyTop
        (fun s => { s with events := s.events ++ [(n, a)] }) (fun s => rfl) h
  | setStatus stat =>
      exact sharedTrace_modifyTop
        (fun s => { s with status := stat }) (fun s => rfl) h
  | closeSp =>
      show sharedTrace (closeTop st)
      unfold closeTop
      cases hst : st.stack with
      | nil => intro s hs u hu; simp [hst] at hs
      | cons t rest =>
          intro s hs u hu
          simp at hs hu
          exact h s (by simp [hst, hs]) u (by simp [hst, hu])
  | logE l m x => exact h
  | counterAdd n d l => exact h
  | histRecord n l => exact h
  | sleep => exact h

theorem sharedTrace_runEvs (evs : List Ev) {st : TraceState}
    (h : sharedTrace st) : sharedTrace (runEvs evs st) := by
  induction evs generalizing st with
  | nil => exact h
  | cons e es ih => exact ih (sharedTrace_applyEv e h)

/-- C2: a span opened while `p` is current gets `parent_span_id =
p.span_id` and inherits `p.trace_id`; a span opened on an empty stack is
a root: no parent, and a freshly generated trace id; consequently every
reachable context stack carries a single trace id through the whole
root-to-leaf chain. -/
theorem span_parent_linkage :
    (∀ (st : TraceState) (name : String) (p : Span) (rest : List Span),
       st.stack = p :: rest →
       ∃ s, (openSpan name st).stack = s :: p :: rest ∧
         s.parentSpanId = some p.spanId ∧ s.traceId = p.traceId ∧
         s.name = name) ∧
    (∀ (st : TraceState) (name : String),
       st.stack = [] →
       ∃ s, (openSpan name st).stack = [s] ∧ s.parentSpanId = none ∧
         s.traceId = newTraceId st ∧ s.name = name) ∧
    (∀ evs : List Ev, sharedTrace (runEvs evs st0)) := by
  refine ⟨?_, ?_, ?_⟩
  · intro st name p rest hstack
    refine ⟨{ name := name, traceId := p.traceId, spanId := newSpanId st 0,
              parentSpanId := some p.spanId, attributes := [], events := [],
              status := .unset, closed := false }, ?_, rfl, rfl, rfl⟩
    unfold openSpan
    rw [hstack]
  · intro st name hstack
    refine ⟨{ name := name, traceId := newTraceId st, spanId := newSpanId st 1,
              parentSpanId := none, attributes := [], events := [],
              status := .unset, closed := false }, ?_, rfl, rfl, rfl⟩
    unfold openSpan
    rw [hstack]
  · intro evs
    exact sharedTrace_runEvs evs (by intro s hs; simp [st0] at hs)

/-- Witness for C2: opening a child over a concrete root, opening a root
on the empty context, and the shared-trace invariant after a concrete
event sequence. -/
theorem span_parent_linkage_witness :
    (∃ s, (openSpan "child" (openSpan "root" st0)).stack
        = s :: (openSpan "root" st0).stack ∧
      s.parentSpanId = some (2 % 2 ^ 64) ∧ s.traceId = 1 % 2 ^ 128 ∧
      s.name = "child") ∧
    (∃ s, (openSpan "root" st0).stack = [s] ∧ s.parentSpanId = none ∧
      s.traceId = newTraceId st0 ∧ s.name = "root") ∧
    sharedTrace (runEvs [.openSp "a", .openSp "b", .closeSp] st0) := by
  refine ⟨?_, ?_, span_parent_linkage.2.2 _⟩
  · obtain ⟨s, h1, h2, h3, h4⟩ :=
      span_parent_linkage.1 (openSpan "root" st0) "child"
        { name := "root", traceId := 1 % 2 ^ 128, spanId := 2 % 2 ^ 64,
          parentSpanId := none, attributes := [], events := [],
          status := .unset, closed := false } [] rfl
    exact ⟨s, h1, h2, h3, h4⟩
  · exact span_parent_linkage.2.1 st0 "root" rfl

/-! ### C3/C4: simulator step and cycle lemmas -/

/-- Running one child step leaves the context stack exactly as it was
(the child span is closed before the next step begins) and hands the
exporter one sealed child span whose events and attributes are the
failure artifacts when the failure draw fired, the success artifacts
otherwise. -/
theorem stepRun (op : String) (cy : Nat) (c : String) (f : Bool) (d : Nat)
    (st : TraceState) :
    (runEvs (stepEvs op cy c f d) st).stack = st.stack ∧
    ∃ cs, (runEvs (stepEvs op cy c f d) st).finished = cs :: st.finished ∧
      cs.name = c ∧ cs.closed = true ∧
      cs.events = cond f
        [("error_occurred", [("error.type", AVal.s "SimulatedError"),
           ("error.message", AVal.s ("Random failure in " ++ c))])]
        [("step_completed", [("duration_ms", AVal.i (Int.ofNat d))])] ∧
      cs.attributes = cond f
        [("step.name", AVal.s c), ("error", AVal.b true)]
        [("step.name", AVal.s c)] := by
  cases f <;> cases hst : st.stack <;>
    simp [stepEvs, runEvs, applyEv, openSpan, setAttrTop, addEventTop,
      setStatusTop, modifyTop, closeTop, dictSet, hst]

/-- Running all child steps of a cycle restores the stack and only adds
sealed spans to the finished list. -/
theorem stepsRun (op : String) (cy : Nat) :
    ∀ (steps : List (String × Bool × Nat)) (st : TraceState),
      (runEvs ((steps.map fun s => stepEvs op cy s.1 s.2.1 s.2.2).flatten) st).stack
          = st.stack ∧
      ∃ l, (runEvs ((steps.map fun s => stepEvs op cy s.1 s.2.1 s.2.2).flatten) st).finished
          = l ++ st.finished := by
  intro steps
  induction steps with
  | nil => exact fun st => ⟨rfl, [], rfl⟩
  | cons s ss ih =>
      intro st
      have hsplit :
          ((s :: ss).map fun q => stepEvs op cy q.1 q.2.1 q.2.2).flatten
            = stepEvs op cy s.1 s.2.1 s.2.2
              ++ ((ss.map fun q => stepEvs op cy q.1 q.2.1 q.2.2).flatten) := by
        simp
      rw [hsplit, runEvs_append]
      obtain ⟨h1, cs, h2, _⟩ := stepRun op cy s.1 s.2.1 s.2.2 st
      obtain ⟨h3, l, h4⟩ := ih (runEvs (stepEvs op cy s.1 s.2.1 s.2.2) st)
      refine ⟨by rw [h3, h1], l ++ [cs], ?_⟩
      rw [h4, h2]
      simp

/-- Number of `counterAdd` events on the instrument named `nm`. -/
def countCounter (nm : String) (evs : List Ev) : Nat :=
  evs.countP fun e => match e with | .counterAdd n _ _ => n == nm | _ => false

/-- Number of `histRecord` events on the instrument named `nm`. -/
def countHist (nm : String) (evs : List Ev) : Nat :=
  evs.countP fun e => match e with | .histRecord n _ => n == nm | _ => false

theorem countCounter_append (nm : String) (a b : List Ev) :
    countCounter nm (a ++ b) = countCounter nm a + countCounter nm b :=
  List.countP_append _ _ _

theorem countHist_append (nm : String) (a b : List Ev) :
    countHist nm (a ++ b) = countHist nm a + countHist nm b :=
  List.countP_append _ _ _

theorem countCounter_bgOps_stepEvs (op : String) (cy : Nat) (c : String)
    (f : Bool) (d : Nat) :
    countCounter "background_operations_total" (stepEvs op cy c f d) = 0 := by
  cases f <;> simp [stepEvs, countCounter]

theorem countHist_bg_stepEvs (op : String) (cy : Nat) (c : String)
    (f : Bool) (d : Nat) :
    countHist "background_operation_duration_seconds" (stepEvs op cy c f d) = 0 := by
  cases f <;> simp [stepEvs, countHist]

theorem countCounter_bgOps_steps (op : String) (cy : Nat)
    (steps : List (String × Bool × Nat)) :
    countCounter "background_operations_total"
      ((steps.map fun s => stepEvs op cy s.1 s.2.1 s.2.2).flatten) = 0 := by
  induction steps with
  | nil => rfl
  | cons s ss ih =>
      have : ((s :: ss).map fun q => stepEvs op cy q.1 q.2.1 q.2.2).flatten
          = stepEvs op cy s.1 s.2.1 s.2.2
            ++ ((ss.map fun q => stepEvs op cy q.1 q.2.1 q.2.2).flatten) := by simp
      rw [this, countCounter_append, countCounter_bgOps_stepEvs, ih]

theorem countHist_bg_steps (op : String) (cy : Nat)
    (steps : List (String × Bool × Nat)) :
    countHist "background_operation_duration_seconds"
      ((steps.map fun s => stepEvs op cy s.1 s.2.1 s.2.2).flatten) = 0 := by
  induction steps with
  | nil => rfl
  | cons s ss ih =>
      have : ((s :: ss).map fun q => stepEvs op cy q.1 q.2.1 q.2.2).flatten
          = stepEvs op cy s.1 s.2.1 s.2.2
            ++ ((ss.map fun q => stepEvs op cy q.1 q.2.1 q.2.2).flatten) := by simp
      rw [this, countHist_append, countHist_bg_stepEvs, ih]

set_option maxRecDepth 8192 in
/-- C3: in each simulator cycle, a child step fails with fixed
probability 10 % (exactly 100 of the 1000 equiprobable draw values); on
failure the sealed child span carries the synthetic `error_occurred`
event and error attribute and the step emits an error-level log plus a
`background_errors_total` increment labeled (operation, step); otherwise
the child span carries the `step_completed` event and the step emits an
info-level log and no error-counter increment; in both branches the
child span is sealed and the stack is restored before the next step. -/
theorem simulator_step_outcomes (op : String) (cy : Nat) (c : String)
    (f : Bool) (d : Nat) (st : TraceState) :
    ((List.range 1000).countP fun r => failDraw r) = 100 ∧
    (runEvs (stepEvs op cy c f d) st).stack = st.stack ∧
    (∃ cs, (runEvs (stepEvs op cy c f d) st).finished = cs :: st.finished ∧
      cs.name = c ∧ cs.closed = true ∧
      cs.events = cond f
        [("error_occurred", [("error.type", AVal.s "SimulatedError"),
           ("error.message", AVal.s ("Random failure in " ++ c))])]
        [("step_completed", [("duration_ms", AVal.i (Int.ofNat d))])] ∧
      cs.attributes = cond f
        [("step.name", AVal.s c), ("error", AVal.b true)]
        [("step.name", AVal.s c)]) ∧
    (f = true →
      Ev.logE "error" ("Step failed: " ++ c)
          [("operation", .s op), ("step", .s c), ("cycle", .i cy)]
        ∈ stepEvs op cy c f d ∧
      Ev.counterAdd "background_errors_total" 1 [("operation", op), ("step", c)]
        ∈ stepEvs op cy c f d) ∧
    (f = false →
      Ev.logE "info" ("Step completed: " ++ c)
          [("operation", .s op), ("step", .s c), ("duration_ms", .i d)]
        ∈ stepEvs op cy c f d ∧
      countCounter "background_errors_total" (stepEvs op cy c f d) = 0) := by
  obtain ⟨h1, h2⟩ := stepRun op cy c f d st
  refine ⟨by decide, h1, h2, ?_, ?_⟩
  · rintro rfl
    constructor <;> simp [stepEvs]
  · rintro rfl
    constructor <;> simp [stepEvs, countCounter]

/-- Witness for C3 at a failing step and at a succeeding step on a
concrete state. -/
theorem simulator_step_outcomes_witness :
    (Ev.logE "error" "Step failed: check-db"
        [("operation", .s "health-check"), ("step", .s "check-db"), ("cycle", .i 1)]
      ∈ stepEvs "health-check" 1 "check-db" true 50 ∧
     Ev.counterAdd "background_errors_total" 1
        [("operation", "health-check"), ("step", "check-db")]
      ∈ stepEvs "health-check" 1 "check-db" true 50) ∧
    (Ev.logE "info" "Step completed: check-db"
        [("operation", .s "health-check"), ("step", .s "check-db"), ("duration_ms", .i 50)]
      ∈ stepEvs "health-check" 1 "check-db" false 50 ∧
     countCounter "background_errors_total" (stepEvs "health-check" 1 "check-db" false 50) = 0) :=
  ⟨(simulator_step_outcomes "health-check" 1 "check-db" true 50 st0).2.2.2.1 rfl,
   (simulator_step_outcomes "health-check" 1 "check-db" false 50 st0).2.2.2.2 rfl⟩

/-- C4: after all child steps the cycle closes the root span carrying
`operation.success` equal to the AND of all step successes, records one
operation-duration histogram observation and exactly one
`background_operations_total` increment labeled by (operation, outcome),
all of it before the final inter-cycle sleep event. -/
theorem simulator_cycle_close (cy : Nat) (nm : String)
    (steps : List (String × Bool × Nat)) (durMs : Nat) :
    (∃ l, cycleEvs cy nm steps durMs = l ++ [Ev.sleep] ∧
      countCounter "background_operations_total" l = 1 ∧
      Ev.counterAdd "background_operations_total" 1
        [("operation", nm),
         ("status", if cycleSuccess steps then "success" else "failure")] ∈ l ∧
      countHist "background_operation_duration_seconds" l = 1) ∧
    (runEvs (cycleEvs cy nm steps durMs) st0).stack = [] ∧
    ∃ root fin, (runEvs (cycleEvs cy nm steps durMs) st0).finished = root :: fin ∧
      root.name = "bg-" ++ nm ∧ root.closed = true ∧
      List.lookup "operation.success" root.attributes
        = some (.b (cycleSuccess steps)) := by
  constructor
  · refine ⟨[Ev.openSp ("bg-" ++ nm),
       Ev.setAttr "operation.type" (.s "background"),
       Ev.setAttr "operation.cycle" (.i cy),
       Ev.logE "info" ("Background operation started: " ++ nm)
         [("operation", .s nm), ("cycle", .i cy)]] ++
      (((steps.map fun s => stepEvs nm cy s.1 s.2.1 s.2.2).flatten) ++
       [Ev.counterAdd "background_operations_total" 1
          [("operation", nm),
           ("status", if cycleSuccess steps then "success" else "failure")],
        Ev.histRecord "background_operation_duration_seconds" [("operation", nm)],
        Ev.setAttr "operation.success" (.b (cycleSuccess steps)),
        Ev.setAttr "operation.duration_ms" (.i durMs),
        Ev.logE "info" ("Background operation completed: " ++ nm)
          [("operation", .s nm), ("success", .b (cycleSuccess steps)),
           ("duration_ms", .i durMs), ("cycle", .i cy)],
        Ev.closeSp]), ?_, ?_, ?_, ?_⟩
    · simp [cycleEvs]
    · rw [countCounter_append, countCounter_append, countCounter_bgOps_steps]
      simp [countCounter]
    · simp
    · rw [countHist_append, countHist_append, countHist_bg_steps]
      simp [countHist]
  · have hsplit : cycleEvs cy nm steps durMs =
        [Ev.openSp ("bg-" ++ nm),
         Ev.setAttr "operation.type" (.s "background"),
         Ev.setAttr "operation.cycle" (.i cy),
         Ev.logE "info" ("Background operation started: " ++ nm)
           [("operation", .s nm), ("cycle", .i cy)]] ++
        (((steps.map fun s => stepEvs nm cy s.1 s.2.1 s.2.2).flatten) ++
         [Ev.counterAdd "background_operations_total" 1
            [("operation", nm),
             ("status", if cycleSuccess steps then "success" else "failure")],
          Ev.histRecord "background_operation_duration_seconds" [("operation", nm)],
          Ev.setAttr "operation.success" (.b (cycleSuccess steps)),
          Ev.setAttr "operation.duration_ms" (.i durMs),
          Ev.logE "info" ("Background operation completed: " ++ nm)
            [("operation", .s nm), ("success", .b (cycleSuccess steps)),
             ("duration_ms", .i durMs), ("cycle", .i cy)],
          Ev.closeSp, Ev.sleep]) := rfl
    rw [hsplit, runEvs_append, runEvs_append]
    have hA : runEvs
        [Ev.openSp ("bg-" ++ nm),
         Ev.setAttr "operation.type" (.s "background"),
         Ev.setAttr "operation.cycle" (.i cy),
         Ev.logE "info" ("Background operation started: " ++ nm)
           [("operation", .s nm), ("cycle", .i cy)]] st0 =
        ⟨[{ name := "bg-" ++ nm, traceId := 1 % 2 ^ 128, spanId := 2 % 2 ^ 64,
            parentSpanId := none,
            attributes := [("operation.type", AVal.s "background"),
                           ("operation.cycle", AVal.i cy)],
            events := [], status := .unset, closed := false }], [], 3⟩ := by
      simp [runEvs, applyEv, openSpan, setAttrTop, modifyTop, st0, dictSet,
        newTraceId, newSpanId]
    rw [hA]
    obtain ⟨hstk, l, hfin⟩ := stepsRun nm cy steps _
    generalize hM : runEvs ((steps.map fun s => stepEvs nm cy s.1 s.2.1 s.2.2).flatten)
        ⟨[{ name := "bg-" ++ nm, traceId := 1 % 2 ^ 128, spanId := 2 % 2 ^ 64,
            parentSpanId := none,
            attributes := [("operation.type", AVal.s "background"),
                           ("operation.cycle", AVal.i cy)],
            events := [], status := .unset, closed := false }], [], 3⟩ = stM at hstk hfin
    refine ⟨?_, ?_⟩
    · simp [runEvs, applyEv, setAttrTop, modifyTop, closeTop, List.foldl, hstk]
    · refine ⟨{ name := "bg-" ++ nm, traceId := 1 % 2 ^ 128, spanId := 2 % 2 ^ 64,
                parentSpanId := none,
                attributes := [("operation.type", AVal.s "background"),
                               ("operation.cycle", AVal.i cy),
                               ("operation.success", AVal.b (cycleSuccess steps)),
                               ("operation.duration_ms", AVal.i durMs)],
                events := [], status := .unset, closed := true }, l ++ [], ?_, rfl, rfl, ?_⟩
      · simp [runEvs, applyEv, setAttrTop, modifyTop, closeTop, List.foldl, hstk,
          hfin, dictSet]
      · simp [List.lookup]

/-! ### C5: scoped span acquisition -/

theorem openSpan_stack (name : String) (st : TraceState) :
    ∃ t, (openSpan name st).stack = t :: st.stack ∧ t.name = name ∧
      t.closed = false := by
  cases hst : st.stack with
  | nil =>
      exact ⟨{ name := name, traceId := newTraceId st, spanId := newSpanId st 1,
               parentSpanId := none, attributes := [], events := [],
               status := .unset, closed := false },
             by simp [openSpan, hst], rfl, rfl⟩
  | cons p rest =>
      exact ⟨{ name := name, traceId := p.traceId, spanId := newSpanId st 0,
               parentSpanId := some p.spanId, attributes := [], events := [],
               status := .unset, closed := false },
             by simp [openSpan, hst], rfl, rfl⟩

theorem openSpan_finished (name : String) (st : TraceState) :
    (openSpan name st).finished = st.finished := by
  cases hst : st.stack <;> simp [openSpan, hst]

/-- C5: the scoped span form opens a span named `name` and makes it
current for the unit of work; whether the unit of work raises or not,
the span is closed exactly once — the stack returns to its pre-open
state and exactly one new sealed span named `name` heads the finished
output; when the unit of work raises `e`, that span carries status
`Error e` and a failure event, and the exception propagates. -/
theorem scoped_span_guarantees (name : String)
    (body : TraceState → TraceState × Option String) (st : TraceState)
    (hw : WellNested body) :
    (∃ t, (openSpan name st).stack = t :: st.stack ∧ t.name = name) ∧
    (∀ e, (body (openSpan name st)).2 = some e →
      (withSpan name body st).2 = some e ∧
      (withSpan name body st).1.stack = st.stack ∧
      ∃ u l, (withSpan name body st).1.finished = u :: (l ++ st.finished) ∧
        u.name = name ∧ u.closed = true ∧ u.status = .error e ∧
        ("exception", [("exception.message", AVal.s e)]) ∈ u.events) ∧
    ((body (openSpan name st)).2 = none →
      (withSpan name body st).2 = none ∧
      (withSpan name body st).1.stack = st.stack ∧
      ∃ u l, (withSpan name body st).1.finished = u :: (l ++ st.finished) ∧
        u.name = name ∧ u.closed = true) := by
  obtain ⟨t, hts, htn, htc⟩ := openSpan_stack name st
  obtain ⟨t2, l, hb1, hb2, hb3, hb4, hb5⟩ := hw (openSpan name st) t st.stack hts
  rw [openSpan_finished] at hb5
  refine ⟨⟨t, hts, htn⟩, ?_, ?_⟩
  · intro e he
    have hws : withSpan name body st =
        (closeTop (setStatusTop (.error e)
          (addEventTop "exception" [("exception.message", .s e)]
            (body (openSpan name st)).1)), some e) := by
      rw [withSpan, he]
    rw [hws]
    refine ⟨rfl, ?_, ?_⟩
    · simp [addEventTop, setStatusTop, modifyTop, closeTop, hb1]
    · refine ⟨{ t2 with
          events := t2.events ++ [("exception", [("exception.message", AVal.s e)])]
          status := .error e
          closed := true }, l, ?_, ?_, rfl, rfl, by simp⟩
      · simp [addEventTop, setStatusTop, modifyTop, closeTop, hb1, hb5]
      · rw [hb3, htn]
  · intro he
    have hws : withSpan name body st =
        (closeTop (body (openSpan name st)).1, none) := by
      rw [withSpan, he]
    rw [hws]
    refine ⟨rfl, ?_, ?_⟩
    · simp [closeTop, hb1]
    · refine ⟨{ t2 with closed := true }, l, ?_, by rw [hb3, htn], rfl⟩
      simp [closeTop, hb1, hb5]

/-- Witness for C5: a unit of work that mutates nothing and raises, and
one that finishes cleanly, both over the empty context. -/
theorem scoped_span_guarantees_witness :
    ((withSpan "op" (fun s => (s, some "boom")) st0).2 = some "boom" ∧
      (withSpan "op" (fun s => (s, some "boom")) st0).1.stack = st0.stack ∧
      ∃ u l, (withSpan "op" (fun s => (s, some "boom")) st0).1.finished
          = u :: (l ++ st0.finished) ∧
        u.name = "op" ∧ u.closed = true ∧ u.status = .error "boom" ∧
        ("exception", [("exception.message", AVal.s "boom")]) ∈ u.events) ∧
    ((withSpan "op2" (fun s => (s, none)) st0).2 = none ∧
      (withSpan "op2" (fun s => (s, none)) st0).1.stack = st0.stack ∧
      ∃ u l, (withSpan "op2" (fun s => (s, none)) st0).1.finished
          = u :: (l ++ st0.finished) ∧
        u.name = "op2" ∧ u.closed = true) := by
  have hwn : WellNested (fun s : TraceState => (s, (some "boom" : Option String))) := by
    intro s t rest h
    exact ⟨t, [], h, rfl, rfl, rfl, rfl⟩
  have hwn2 : WellNested (fun s : TraceState => (s, (none : Option String))) := by
    intro s t rest h
    exact ⟨t, [], h, rfl, rfl, rfl, rfl⟩
  exact ⟨(scoped_span_guarantees "op" _ st0 hwn).2.1 "boom" rfl,
         (scoped_span_guarantees "op2" _ st0 hwn2).2.2 rfl⟩

/-! ### C6: strict LIFO closing -/

/-- C6: closing a handle that is not the current top of the stack is a
reported (non-fatal) usage error: `closeHandle` signals the error and
returns the state unchanged. -/
theorem lifo_close_rejected (st : TraceState) (sid : Nat) (top : Span)
    (rest : List Span) (hstack : st.stack = top :: rest)
    (hne : top.spanId ≠ sid) :
    closeHandle sid st = (st, true) := by
  unfold closeHandle
  rw [hstack]
  simp [hne]

/-- Witness for C6: open S1, S2, S3 in order (span ids 2, 3, 4), then
attempt to close S2 (id 3) while S3 (id 4) is still open: the attempt
is rejected and the state is unchanged. -/
theorem lifo_close_rejected_witness :
    closeHandle (3 % 2 ^ 64)
        (openSpan "S3" (openSpan "S2" (openSpan "S1" st0)))
      = (openSpan "S3" (openSpan "S2" (openSpan "S1" st0)), true) :=
  lifo_close_rejected _ _ _ _ rfl (by decide)

/-! ### C7: metric accumulators under concurrency -/

theorem runAdds_value (ds : List Int) : ∀ s : Series,
    (runAdds s ds).value = s.value + ds.sum := by
  induction ds with
  | nil => intro s; simp [runAdds]
  | cons d ds ih =>
      intro s
      have h1 : runAdds s (d :: ds) = runAdds (s.add d) ds := rfl
      rw [h1, ih]
      simp [Series.add]
      ring

/-- C7: per series, each `add` is atomic, so any interleaving of the N
writers' deltas (any reordering of their concatenation) leaves the
accumulator at exactly the sum of all recorded deltas — no update is
lost; and with positive deltas the accumulated value is monotonically
non-decreasing over time. -/
theorem counter_no_lost_updates :
    (∀ (writers : List (List Int)) (sched : List Int),
       sched.Perm writers.flatten →
       (runAdds ⟨0⟩ sched).value = writers.flatten.sum) ∧
    (∀ (s : Series) (pre suf : List Int),
       (∀ d ∈ suf, 0 < d) →
       (runAdds s pre).value ≤ (runAdds s (pre ++ suf)).value) := by
  constructor
  · intro writers sched hperm
    rw [runAdds_value]
    simp [hperm.sum_eq]
  · intro s pre suf hpos
    have h1 : runAdds s (pre ++ suf) = runAdds (runAdds s pre) suf := by
      simp [runAdds, List.foldl_append]
    rw [h1, runAdds_value suf]
    have : (0 : Int) ≤ suf.sum :=
      List.sum_nonneg fun d hd => le_of_lt (hpos d hd)
    omega

/-- Witness for C7: two writers with deltas [1, 2] and [3], one
interleaved schedule, and monotonicity across a concrete extension. -/
theorem counter_no_lost_updates_witness :
    (runAdds ⟨0⟩ [3, 1, 2]).value = ([[1, 2], [3]] : List (List Int)).flatten.sum ∧
    (runAdds ⟨0⟩ [5]).value ≤ (runAdds ⟨0⟩ ([5] ++ [1, 2])).value :=
  ⟨counter_no_lost_updates.1 [[1, 2], [3]] [3, 1, 2] (by decide),
   counter_no_lost_updates.2 ⟨0⟩ [5] [1, 2] (by decide)⟩

/-! ### C8: cycle structure and catalog selection -/

theorem opensOf_append (a b : List Ev) :
    opensOf (a ++ b) = opensOf a ++ opensOf b :=
  List.filterMap_append _ _ _

theorem opensOf_stepEvs (op : String) (cy : Nat) (c : String) (f : Bool)
    (d : Nat) : opensOf (stepEvs op cy c f d) = [c] := by
  cases f <;> simp [stepEvs, opensOf]

theorem opensOf_steps (op : String) (cy : Nat)
    (steps : List (String × Bool × Nat)) :
    opensOf ((steps.map fun s => stepEvs op cy s.1 s.2.1 s.2.2).flatten)
      = steps.map (·.1) := by
  induction steps with
  | nil => rfl
  | cons s ss ih =>
      have : ((s :: ss).map fun q => stepEvs op cy q.1 q.2.1 q.2.2).flatten
          = stepEvs op cy s.1 s.2.1 s.2.2
            ++ ((ss.map fun q => stepEvs op cy q.1 q.2.1 q.2.2).flatten) := by simp
      rw [this, opensOf_append, opensOf_stepEvs, ih]
      rfl

theorem opensOf_cycleEvs (cy : Nat) (nm : String)
    (steps : List (String × Bool × Nat)) (durMs : Nat) :
    opensOf (cycleEvs cy nm steps durMs) = ("bg-" ++ nm) :: steps.map (·.1) := by
  have hsplit : cycleEvs cy nm steps durMs =
      [Ev.openSp ("bg-" ++ nm),
       Ev.setAttr "operation.type" (.s "background"),
       Ev.setAttr "operation.cycle" (.i cy),
       Ev.logE "info" ("Background operation started: " ++ nm)
         [("operation", .s nm), ("cycle", .i cy)]] ++
      (((steps.map fun s => stepEvs nm cy s.1 s.2.1 s.2.2).flatten) ++
       [Ev.counterAdd "background_operations_total" 1
          [("operation", nm),
           ("status", if cycleSuccess steps then "success" else "failure")],
        Ev.histRecord "background_operation_duration_seconds" [("operation", nm)],
        Ev.setAttr "operation.success" (.b (cycleSuccess steps)),
        Ev.setAttr "operation.duration_ms" (.i durMs),
        Ev.logE "info" ("Background operation completed: " ++ nm)
          [("operation", .s nm), ("success", .b (cycleSuccess steps)),
           ("duration_ms", .i durMs), ("cycle", .i cy)],
        Ev.closeSp, Ev.sleep]) := rfl
  rw [hsplit, opensOf_append, opensOf_append, opensOf_steps]
  simp [opensOf]

/-- C8: the simulator catalog has exactly five (name, ordered steps)
entries; the per-cycle choice is the uniform index `r % 5` into it (each
entry is hit equally often over a full residue range of draws); each
cycle opens a root span named after the chosen operation, carries a
cycle-counter attribute one larger than the previous cycle's count, and
opens exactly one child span per catalog step, in catalog order. -/
theorem simulator_catalog_selection :
    operations.length = 5 ∧
    (∀ r : Nat, pickOp r = operations.getD (r % 5) ("", [])) ∧
    (∀ i : Nat, i < 5 →
      ((List.range 10).countP fun r => pickOp r == operations.getD i ("", [])) = 2) ∧
    (∀ (cyclesBefore r : Nat) (fails : List Bool) (durs : List Nat) (durMs : Nat),
      (pickOp r).2.length ≤ fails.length →
      (pickOp r).2.length ≤ durs.length →
      opensOf (emitterCycle cyclesBefore r fails durs durMs)
          = ("bg-" ++ (pickOp r).1) :: (pickOp r).2 ∧
      Ev.setAttr "operation.cycle" (.i (cyclesBefore + 1))
          ∈ emitterCycle cyclesBefore r fails durs durMs) := by
  refine ⟨rfl, fun r => rfl, by decide, ?_⟩
  intro cb r fails durs durMs hf hd
  constructor
  · rw [emitterCycle, opensOf_cycleEvs]
    congr 1
    apply List.map_fst_zip
    rw [List.length_zip]
    omega
  · rw [emitterCycle]
    have hsplit : cycleEvs (cb + 1) (pickOp r).1
        ((pickOp r).2.zip (fails.zip durs)) durMs =
        Ev.openSp ("bg-" ++ (pickOp r).1) ::
        Ev.setAttr "operation.type" (.s "background") ::
        Ev.setAttr "operation.cycle" (.i (cb + 1)) :: _ := rfl
    rw [hsplit]
    simp

/-- Witness for C8 on concrete draws (operation 0, three steps). -/
theorem simulator_catalog_selection_witness :
    ((List.range 10).countP fun r => pickOp r == operations.getD 0 ("", [])) = 2 ∧
    opensOf (emitterCycle 0 0 [false, false, false] [1, 1, 1] 7)
        = ("bg-" ++ (pickOp 0).1) :: (pickOp 0).2 ∧
    Ev.setAttr "operation.cycle" (.i 1)
        ∈ emitterCycle 0 0 [false, false, false] [1, 1, 1] 7 :=
  ⟨simulator_catalog_selection.2.2.1 0 (by decide),
   (simulator_catalog_selection.2.2.2 0 0 [false, false, false] [1, 1, 1] 7
      (by decide) (by decide)).1,
   (simulator_catalog_selection.2.2.2 0 0 [false, false, false] [1, 1, 1] 7
      (by decide) (by decide)).2⟩

/-! ### C9 and C10: endpoint instrumentation -/

/-- C9: each of the four instrumented endpoints adds +1 to the
`http_requests_active` up/down counter on entry and -1 in its `finally`
block, so each request's net effect on the counter is 0 on every path:
plain success, the 404 early return, the slow-payment path, and the
raised-and-caught exception of `/api/error`. -/
theorem active_requests_balanced :
    activeSum homeRun.1 = 0 ∧
    (∀ (slow : Bool) (oid amtStr : String) (amtA : AVal) (items txn : Nat),
      activeSum (createOrderRun slow oid amtStr amtA items txn).1 = 0) ∧
    (∀ (nf : Bool) (oid : String), activeSum (getOrderRun nf oid).1 = 0) ∧
    activeSum triggerErrorRun.1 = 0 := by
  refine ⟨rfl, ?_, ?_, rfl⟩
  · intro slow oid amtStr amtA items txn
    cases slow <;> simp [createOrderRun, activeSum]
  · intro nf oid
    cases nf <;> simp [getOrderRun, activeSum]

/-- C10: every request to `/api/error` raises
`ValueError("Simulated error for demonstration")` inside the
`failing-operation` span; the sealed span carries the recorded exception
event and Error status; the handler catches the exception (the process
does not terminate: the outcome is a normal `.ok` response), returns
HTTP 500 carrying the error message, and increments the request counter
labeled status "500". -/
theorem error_endpoint_behavior :
    triggerErrorRun.2 = .ok (500, simErrMsg) ∧
    simErrMsg = "Simulated error for demonstration" ∧
    Ev.counterAdd "http_requests_total" 1
        [("endpoint", "/api/error"), ("method", "GET"), ("status", "500")]
      ∈ triggerErrorRun.1 ∧
    (runEvs triggerErrorRun.1 st0).stack = [] ∧
    ∃ u, u ∈ (runEvs triggerErrorRun.1 st0).finished ∧
      u.name = "failing-operation" ∧ u.closed = true ∧
      u.status = .error simErrMsg ∧
      ("exception", [("exception.type", AVal.s "ValueError"),
        ("exception.message", AVal.s simErrMsg)]) ∈ u.events ∧
      List.lookup "error" u.attributes = some (.b true) := by
  refine ⟨rfl, rfl, by decide, by decide, ?_⟩
  refine ⟨{ name := "failing-operation", traceId := 1 % 2 ^ 128,
            spanId := 2 % 2 ^ 64, parentSpanId := none,
            attributes := [("error", AVal.b true)],
            events := [("exception", [("exception.type", AVal.s "ValueError"),
                         ("exception.message", AVal.s simErrMsg)]),
                       ("exception", [("exception.type", AVal.s "ValueError"),
                         ("exception.message", AVal.s simErrMsg)])],
            status := .error simErrMsg, closed := true }, ?_, rfl, rfl, rfl,
          by simp, by simp [List.lookup]⟩
  decide

end TestApp
